import Mathlib

/-!
Shallow embedding of the offline-sync core of the onx-forms repository
(field data-collection PWA), together with theorems settling the frozen
claims about its specification.

The embedding follows the JavaScript source:
  * `src/src/db/index.js`             — IndexedDB DAOs (`SyncQueueDAO`, …)
  * `src/src/utils/syncManager.js`    — `SyncManager` (drain cycle, per-item
                                        processing, listeners)
  * `src/unnamed/part_005`            — `SyncService` (variant with backoff)
  * `src/src/services/mediaUploadServices.js` — chunked media store
  * `src/public/service-worker.js`    — mutation interception / request queue
  * `src/src/api/ApiService.js`       — `EnhancedApiService.request`

IndexedDB object stores are modelled as Lean lists kept in ascending
primary-key order (IndexedDB iterates records in key order; all stores
involved use auto-increment integer keys assigned in insertion order,
so append preserves that order).  Clock values (`Date.now()` /
ISO timestamps) are modelled as `Nat` and threaded explicitly.
-/

namespace OnxForms

/-- Decidable equality for `Except`, used to evaluate outcomes of the
embedded fallible operations on concrete inputs. -/
instance {ε α : Type} [DecidableEq ε] [DecidableEq α] :
    DecidableEq (Except ε α) := fun x y =>
  match x, y with
  | .ok a, .ok b =>
    if h : a = b then isTrue (by rw [h])
    else isFalse (by intro hc; cases hc; exact h rfl)
  | .error a, .error b =>
    if h : a = b then isTrue (by rw [h])
    else isFalse (by intro hc; cases hc; exact h rfl)
  | .ok _, .error _ => isFalse (by intro hc; cases hc)
  | .error _, .ok _ => isFalse (by intro hc; cases hc)

/-- JavaScript `String.prototype.startsWith`, at the character level. -/
def strStartsWith (s p : String) : Bool := p.data.isPrefixOf s.data

/-! ### Sync queue data model (`src/src/db/index.js`, store `sync-queue`) -/

/-- The `data` payload of a sync-queue item: `{ formDataId }` for
`FORM_SUBMISSION` items, `{ mediaId, formDataId }` for `MEDIA_UPLOAD` items. -/
structure Payload where
  formDataId : Option Nat := none
  mediaId : Option Nat := none
deriving Repr, DecidableEq

/-- A record of the `sync-queue` object store.  Fields mirror the JS object:
auto-increment `id`, discriminator `type` (`"FORM_SUBMISSION"` /
`"MEDIA_UPLOAD"`), `status`, `attempts`, `lastError`, timestamps, and the
`priority` field added by `SyncService.addToQueue` (part_005).  No code path
ever writes a `nextEligibleRetry` field on sync-queue records, but the spec
names one, so it is carried as an `Option`. -/
structure QueueItem where
  id : Nat
  type : String
  data : Payload
  status : String
  attempts : Nat
  priority : String := "normal"
  lastError : Option String := none
  nextEligibleRetry : Option Nat := none
  createdAt : Nat := 0
  updatedAt : Nat := 0
deriving Repr, DecidableEq

namespace SyncQueueDAO

/-- `SyncQueueDAO.addToQueue(item)`: spreads the caller's item and then
overrides `status`, `createdAt` and `attempts`; the store assigns the next
auto-increment key.  The queue list is the store in ascending key order. -/
def addToQueue (q : List QueueItem) (nextId : Nat) (now : Nat)
    (item : QueueItem) : List QueueItem :=
  q ++ [{ item with id := nextId, status := "pending", createdAt := now,
                    attempts := 0 }]

/-- `SyncQueueDAO.getNextBatch(limit)`: `index('status').getAll('pending',
limit)` — the first `limit` records whose `status` is `"pending"`, in
primary-key (creation) order.  The source applies no filter on
`nextEligibleRetry` and no ordering by `priority`. -/
def getNextBatch (q : List QueueItem) (limit : Nat) : List QueueItem :=
  (q.filter (fun it => it.status == "pending")).take limit

/-- The record mutation `SyncQueueDAO.updateStatus` performs on the one
record whose key matches: set `status` and `updatedAt`, unconditionally
execute `item.attempts += 1`, and set `lastError` only when an error
argument was given. -/
def applyStatus (id : Nat) (status : String) (error : Option String)
    (now : Nat) (it : QueueItem) : QueueItem :=
  if it.id == id then
    { it with status := status, updatedAt := now,
              attempts := it.attempts + 1,
              lastError := match error with
                | some e => some e
                | none => it.lastError }
  else it

/-- `SyncQueueDAO.updateStatus(id, status, error)`: loads the record by key,
applies `applyStatus`, and puts it back; records with other keys are
untouched, and a missing id is a no-op (the JS returns `null`).  Note the JS
signature has exactly these three data parameters; extra arguments passed by
callers are dropped. -/
def updateStatus (q : List QueueItem) (id : Nat) (status : String)
    (error : Option String) (now : Nat) : List QueueItem :=
  q.map (applyStatus id status error now)

end SyncQueueDAO

/-! ### SyncManager (`src/src/utils/syncManager.js`) -/

/-- A record of the `form-data` store (`FormDataDAO`): a finalized
submission awaiting delivery.  `submitted` is set by `markAsSubmitted`. -/
structure FormDataRec where
  id : Nat
  formId : String
  projectId : String
  data : String
  createdAt : Nat := 0
  submitted : Bool := false
deriving Repr, DecidableEq

/-- A record of the `media` store (`MediaDAO`): `serverUrl` is `some` once
the upload completed. -/
structure MediaRec where
  id : Nat
  formDataId : Nat
  fieldName : String
  type : String := ""
  serverUrl : Option String := none
deriving Repr, DecidableEq

/-- The durable state the SyncManager operates over, plus the clock and the
next auto-increment key of the sync-queue store. -/
structure AppState where
  formData : List FormDataRec
  media : List MediaRec
  queue : List QueueItem
  nextQueueId : Nat
  now : Nat
deriving Repr, DecidableEq

/-- Outcomes of the remote API calls made while processing one item, supplied
as an oracle: `submitForm` for the submission POST, `uploadMedia` for the
media upload POST.  `Except.error msg` models a thrown error (network failure
or non-OK response). -/
structure ApiOracle where
  submitForm : Except String Unit
  uploadMedia : Except String String
deriving Repr

namespace SyncManager

/-- `BATCH_SIZE` in `syncManager.js`. -/
def BATCH_SIZE : Nat := 10

/-- `MAX_RETRY_ATTEMPTS` in `syncManager.js`. -/
def MAX_RETRY_ATTEMPTS : Nat := 3

/-- `FormDataDAO.getFormData(id)`. -/
def getFormData (st : AppState) (id : Nat) : Option FormDataRec :=
  st.formData.find? (fun fd => fd.id == id)

/-- `MediaDAO.getMediaByFormData(formDataId)` — index lookup, key order. -/
def getMediaByFormData (st : AppState) (formDataId : Nat) : List MediaRec :=
  st.media.filter (fun m => m.formDataId == formDataId)

/-- `FormDataDAO.markAsSubmitted(id)`. -/
def markAsSubmitted (st : AppState) (id : Nat) : AppState :=
  { st with formData := st.formData.map (fun fd =>
      if fd.id == id then { fd with submitted := true } else fd) }

/-- `MediaDAO`-style update used by `syncMediaUpload`: record the server URL
on the media row. -/
def updateMediaUrl (st : AppState) (mediaId : Nat) (url : String) : AppState :=
  { st with media := st.media.map (fun m =>
      if m.id == mediaId then { m with serverUrl := some url } else m) }

/-- `SyncManager.addToQueue(type, data)`: builds a pending item (no
`priority` argument in this variant) and hands it to `SyncQueueDAO.addToQueue`,
which assigns the auto-increment key. -/
def addToQueue (st : AppState) (type : String) (data : Payload) : AppState :=
  { st with
      queue := SyncQueueDAO.addToQueue st.queue st.nextQueueId st.now
        { id := 0, type := type, data := data, status := "pending",
          attempts := 0 },
      nextQueueId := st.nextQueueId + 1 }

/-- Error message thrown by `syncFormSubmission` when a media file has no
server URL yet. -/
def mediaNotReadyMsg : String :=
  "Media files must be uploaded before form submission"

/-- `SyncManager.syncFormSubmission(item)`: loads the form data, loads its
media, and walks the media list; at the FIRST media row without a
`serverUrl` it enqueues one `MEDIA_UPLOAD` item and throws.  Otherwise it
POSTs the submission and marks the form data submitted.  Returns the updated
state paired with the normal/thrown outcome. -/
def syncFormSubmission (api : ApiOracle) (st : AppState) (item : QueueItem) :
    AppState × Except String Unit :=
  match item.data.formDataId with
  | none => (st, .error "Form data not found for ID: undefined")
  | some formDataId =>
    match getFormData st formDataId with
    | none => (st, .error ("Form data not found for ID: " ++ toString formDataId))
    | some _ =>
      let mediaFiles := getMediaByFormData st formDataId
      match mediaFiles.find? (fun m => m.serverUrl.isNone) with
      | some m =>
        (addToQueue st "MEDIA_UPLOAD"
           { mediaId := some m.id, formDataId := some formDataId },
         .error mediaNotReadyMsg)
      | none =>
        match api.submitForm with
        | .error e => (st, .error e)
        | .ok _ => (markAsSubmitted st formDataId, .ok ())

/-- `SyncManager.syncMediaUpload(item)`: loads the media row; returns at once
if it already has a `serverUrl`; otherwise uploads and records the URL. -/
def syncMediaUpload (api : ApiOracle) (st : AppState) (item : QueueItem) :
    AppState × Except String Unit :=
  match item.data.mediaId with
  | none => (st, .error "Media not found for ID: undefined")
  | some mediaId =>
    match st.media.find? (fun m => m.id == mediaId) with
    | none => (st, .error ("Media not found for ID: " ++ toString mediaId))
    | some m =>
      if m.serverUrl.isSome then (st, .ok ())
      else
        match api.uploadMedia with
        | .error e => (st, .error e)
        | .ok url => (updateMediaUrl st mediaId url, .ok ())

/-- `SyncManager.processItem(item)`: skip-and-fail items past
`MAX_RETRY_ATTEMPTS` (this path returns normally); otherwise mark
`processing`, dispatch by `type`, mark `completed`, and on any thrown error
mark `error` with the message and rethrow. -/
def processItem (api : ApiOracle) (st : AppState) (item : QueueItem) :
    AppState × Except String Unit :=
  if item.attempts ≥ MAX_RETRY_ATTEMPTS then
    let qf := SyncQueueDAO.updateStatus st.queue item.id "failed"
      (some "Max retry attempts exceeded") st.now
    ({ st with queue := qf }, .ok ())
  else
    let q1 := SyncQueueDAO.updateStatus st.queue item.id "processing" none st.now
    let st1 : AppState := { st with queue := q1 }
    let step : AppState × Except String Unit :=
      match item.type with
      | "FORM_SUBMISSION" => syncFormSubmission api st1 item
      | "MEDIA_UPLOAD" => syncMediaUpload api st1 item
      | other => (st1, .error ("Unknown sync item type: " ++ other))
    match step with
    | (st2, .ok _) =>
      let qc := SyncQueueDAO.updateStatus st2.queue item.id "completed" none st2.now
      ({ st2 with queue := qc }, .ok ())
    | (st2, .error e) =>
      let qe := SyncQueueDAO.updateStatus st2.queue item.id "error" (some e) st2.now
      ({ st2 with queue := qe }, .error e)

end SyncManager

/-! ### SyncService (`src/unnamed/part_005`)

The `SyncService` variant shares `SyncQueueDAO` with the manager above.  Its
`processItem` additionally computes an exponential backoff on error and calls
`SyncQueueDAO.updateStatus(item.id, 'error', error.message, attempts,
nextRetry)` — but that DAO function has only three data parameters, so the
`attempts` and `nextRetry` arguments are silently dropped (JavaScript ignores
extra arguments).  The model makes the computed backoff observable by
returning it alongside the updated queue. -/

namespace SyncService

/-- Result of one `SyncService.processItem` call: updated queue, the
fulfilled/rejected outcome, and the backoff the catch branch computed
(`none` when no error was thrown).  The backoff value is returned for
observability only; as in the source it is never persisted, because
`SyncQueueDAO.updateStatus` drops its fourth and fifth arguments. -/
structure ProcessResult where
  queue : List QueueItem
  outcome : Except String String
  computedBackoffMs : Option Nat
deriving Repr

/-- `SyncService.processItem(item)` (part_005, lines 150-196), with the work
of `syncFormSubmission` / `syncMediaUpload` abstracted into a `worker`
outcome oracle.  `maxRetryAttempts` is the instance field (5 in the
constructor; the claims stipulate configurations, so it is a parameter). -/
def processItem (maxRetryAttempts : Nat) (worker : Except String String)
    (q : List QueueItem) (item : QueueItem) (now : Nat) : ProcessResult :=
  if item.attempts ≥ maxRetryAttempts then
    { queue := SyncQueueDAO.updateStatus q item.id "failed"
        (some "Max retry attempts exceeded") now,
      outcome := .ok "failed", computedBackoffMs := none }
  else
    let q1 := SyncQueueDAO.updateStatus q item.id "processing" none now
    match worker with
    | .ok r =>
      { queue := SyncQueueDAO.updateStatus q1 item.id "completed" none now,
        outcome := .ok r, computedBackoffMs := none }
    | .error e =>
      -- const attempts = item.attempts + 1  (stale in-memory value)
      let attempts := item.attempts + 1
      -- Math.min(1000 * Math.pow(2, attempts), 30 * 60 * 1000)
      let backoffTime := min (1000 * 2 ^ attempts) (30 * 60 * 1000)
      -- updateStatus(item.id, 'error', e, attempts, nextRetry):
      -- the last two arguments do not exist in the DAO and are dropped.
      { queue := SyncQueueDAO.updateStatus q1 item.id "error" (some e) now,
        outcome := .error e, computedBackoffMs := some backoffTime }

/-- One drain pass over the queue: fetch `getNextBatch BATCH_SIZE` and run
`processItem` on each fetched item (state threaded; item snapshots come from
the batch read, as in the source). -/
def drainOnce (maxRetryAttempts : Nat) (worker : Except String String)
    (q : List QueueItem) (now : Nat) : List QueueItem :=
  let batch := SyncQueueDAO.getNextBatch q SyncManager.BATCH_SIZE
  batch.foldl (fun acc it => (processItem maxRetryAttempts worker acc it now).queue) q

/-- `n` successive drain passes (one per drain cycle that reaches the
queue). -/
def drainTimes (maxRetryAttempts : Nat) (worker : Except String String)
    (q : List QueueItem) (now : Nat) : Nat → List QueueItem
  | 0 => q
  | n + 1 => drainTimes maxRetryAttempts worker
      (drainOnce maxRetryAttempts worker q now) now n

end SyncService

/-! ### The `syncAll` mutual-exclusion discipline

Both `SyncManager.syncAll` (syncManager.js, lines 104-161) and
`SyncService.syncAll` (part_005, lines 105-148) follow the same pattern:

    if (this.isSyncing) return this.syncPromise;
    this.isSyncing = true;
    this.syncPromise = (async () => { ... finally { this.isSyncing = false;
                                                    this.syncPromise = null; } })();

In the single-threaded JS event loop the flag test-and-set is atomic, so the
observable behaviour is captured by a transition system over the sequence of
`syncAll` invocations and cycle completions.  The state records the flag, the
number of currently running drain cycles, and how many cycles were ever
started.  A `request` that finds the flag set returns the in-flight promise
and changes nothing — neither class records a pending re-run (the
`pendingSync` field read by `SyncService.getSyncStatus` is never written). -/

namespace SyncAll

/-- External events: a call to `syncAll` (`request`) and the completion of
the running drain cycle's promise (`finish`, the `finally` block). -/
inductive Event where
  | request
  | finish
deriving Repr, DecidableEq

/-- Observable scheduler state of the singleton manager. -/
structure SchedState where
  isSyncing : Bool
  active : Nat
  started : Nat
deriving Repr, DecidableEq

/-- Initial state of the singleton (constructor: `isSyncing = false`). -/
def initState : SchedState := { isSyncing := false, active := 0, started := 0 }

/-- One event step, read off `syncAll` and its `finally` block. -/
def step (s : SchedState) : Event → SchedState
  | .request =>
    if s.isSyncing then s
    else { isSyncing := true, active := s.active + 1, started := s.started + 1 }
  | .finish =>
    if s.isSyncing then { s with isSyncing := false, active := s.active - 1 }
    else s

/-- Run a sequence of events from a state. -/
def run (s : SchedState) (evs : List Event) : SchedState := evs.foldl step s

end SyncAll

/-! ### Chunked media store (`src/src/services/mediaUploadServices.js`)

Blobs are modelled as byte lists.  The pixel work of `compressImage`
(canvas resize + JPEG re-encode) happens inside the browser and is abstracted
as a byte transform `reencode`; the resulting `File`'s name and declared MIME
type follow the source literally (`new File([blob], file.name,
{ type: 'image/jpeg', ... })`). -/

namespace MediaStore

/-- `CHUNK_SIZE = 1024 * 1024` (1 MiB). -/
def CHUNK_SIZE : Nat := 1024 * 1024

/-- A `File`/`Blob` value: name, MIME type, bytes. -/
structure MediaFile where
  name : String
  type : String
  data : List Nat
deriving Repr, DecidableEq

/-- A record of the `media` metadata store. -/
structure MediaMeta where
  id : String
  formDataId : Nat
  fieldName : String
  filename : String
  type : String
  size : Nat
  status : String
deriving Repr, DecidableEq

/-- A record of the `chunks` store; `id` is `` `${mediaId}_${i}` ``. -/
structure ChunkRec where
  id : String
  mediaId : String
  chunkIndex : Nat
  data : List Nat
  size : Nat
deriving Repr, DecidableEq

/-- A record of the `upload-queue` store. -/
structure UploadEntry where
  id : String
  mediaId : String
  status : String
  retryCount : Nat
  totalChunks : Nat
deriving Repr, DecidableEq

/-- The three object stores of the `media-uploads` database, each in
ascending key order. -/
structure MediaDB where
  media : List MediaMeta
  chunks : List ChunkRec
  uploadQueue : List UploadEntry
deriving Repr, DecidableEq

/-- The empty `media-uploads` database. -/
def emptyDB : MediaDB := { media := [], chunks := [], uploadQueue := [] }

/-- `compressImage(file)`: the canvas re-encode, abstracted over the byte
transform; the produced `File` keeps the name and is declared
`'image/jpeg'`. -/
def compressImage (reencode : List Nat → List Nat) (file : MediaFile) :
    MediaFile :=
  { name := file.name, type := "image/jpeg", data := reencode file.data }

/-- `Math.ceil(size / CHUNK_SIZE)`. -/
def totalChunksOf (size c : Nat) : Nat := (size + c - 1) / c

/-- The chunk byte slices: `file.slice(i*c, min((i+1)*c, size))` for
`i = 0 .. totalChunks-1`. -/
def chunkSlices (c : Nat) (data : List Nat) : List (List Nat) :=
  (List.range (totalChunksOf data.length c)).map
    (fun i => (data.drop (i * c)).take c)

/-- The `chunks`-store records `storeMedia` writes for one media id. -/
def buildChunks (mediaId : String) (c : Nat) (data : List Nat) :
    List ChunkRec :=
  (List.range (totalChunksOf data.length c)).map (fun i =>
    let chunk := (data.drop (i * c)).take c
    { id := mediaId ++ "_" ++ toString i, mediaId := mediaId,
      chunkIndex := i, data := chunk, size := chunk.length })

/-- `storeMedia(file, formDataId, fieldName)`: compress when the MIME type
is an image other than gif, write the metadata row, write all chunk rows,
and append an upload-queue entry.  `mediaId` is the `uuidv4()` value,
supplied by the caller of the model. -/
def storeMedia (reencode : List Nat → List Nat) (mediaId : String)
    (file : MediaFile) (formDataId : Nat) (fieldName : String)
    (db : MediaDB) : MediaDB :=
  let processedFile :=
    if strStartsWith file.type "image/" && file.type != "image/gif" then
      compressImage reencode file
    else file
  let meta : MediaMeta :=
    { id := mediaId, formDataId := formDataId, fieldName := fieldName,
      filename := processedFile.name, type := processedFile.type,
      size := processedFile.data.length, status := "pending" }
  let entry : UploadEntry :=
    { id := mediaId, mediaId := mediaId, status := "pending",
      retryCount := 0,
      totalChunks := totalChunksOf processedFile.data.length CHUNK_SIZE }
  { media := db.media ++ [meta],
    chunks := db.chunks ++ buildChunks mediaId CHUNK_SIZE processedFile.data,
    uploadQueue := db.uploadQueue ++ [entry] }

/-- `getMediaFile(mediaId)`: load the metadata (a miss throws), collect the
chunks by index lookup, sort them by `chunkIndex` (the JS
`chunks.sort((a, b) => a.chunkIndex - b.chunkIndex)`, a stable sort), and
concatenate the chunk bytes into a `File` with the stored name and type. -/
def getMediaFile (db : MediaDB) (mediaId : String) :
    Option (MediaMeta × MediaFile) :=
  match db.media.find? (fun m => m.id == mediaId) with
  | none => none
  | some metadata =>
    let chunks := db.chunks.filter (fun ch => ch.mediaId == mediaId)
    let sorted := chunks.insertionSort
      (fun a b => a.chunkIndex ≤ b.chunkIndex)
    some (metadata,
      { name := metadata.filename, type := metadata.type,
        data := (sorted.map (fun ch => ch.data)).flatten })

end MediaStore

/-! ### Service-worker mutation handling (`src/public/service-worker.js`)

`handleMutation` tries the network; if the fetch throws while
`navigator.onLine` is false it queues the full request and answers with a
synthetic JSON response (HTTP 200, body `{success: false, offline: true,
message: ...}`); if the fetch throws while online the error is rethrown.
The fetch outcome and the online flag are inputs of the model. -/

namespace ServiceWorker

/-- A URL split the way `new URL(request.url)` exposes it. -/
structure Url where
  origin : String
  pathname : String
deriving Repr, DecidableEq

/-- The full URL string. -/
def Url.href (u : Url) : String := u.origin ++ u.pathname

/-- The parts of a `Request` that `queueRequest` persists. -/
structure SWRequest where
  url : Url
  method : String
  headers : List (String × String)
  credentials : String
  mode : String
  referrer : String
  body : String
deriving Repr, DecidableEq

/-- The body of a `Response`; the offline-acceptance body is the JSON object
`{success: false, offline: true, message: 'You are offline. ...'}` from the
source, represented symbolically. -/
inductive ResponseBody where
  | offlineNotice
  | upstream (raw : String)
deriving Repr, DecidableEq

/-- A `Response`. -/
structure SWResponse where
  status : Nat
  contentType : String
  body : ResponseBody
deriving Repr, DecidableEq

/-- The mock response `handleMutation` returns for an offline failure:
`new Response(JSON.stringify({success: false, offline: true, message: ...}),
{ status: 200, headers: { 'Content-Type': 'application/json' } })`. -/
def offlineResponse : SWResponse :=
  { status := 200, contentType := "application/json",
    body := .offlineNotice }

/-- The `data` persisted per queued request. -/
structure RequestData where
  url : String
  method : String
  headers : List (String × String)
  credentials : String
  mode : String
  referrer : String
  body : String
  timestamp : Nat
deriving Repr, DecidableEq

/-- A record of the `requests` store of `fse-offline-requests`. -/
structure QueuedRec where
  tag : String
  data : RequestData
  status : String
  retries : Nat
  createdAt : Nat
deriving Repr, DecidableEq

/-- The sync tag chosen by `queueRequest` from the pathname. -/
def syncTagOf (u : Url) : String :=
  if strStartsWith u.pathname "/api/submissions" then "sync-forms"
  else if strStartsWith u.pathname "/api/media" then "sync-media"
  else "sync-general"

/-- `queueRequest(request)`: extract the request data and `db.add` one
record to the `requests` store. -/
def queueRequest (req : SWRequest) (now : Nat) (db : List QueuedRec) :
    List QueuedRec :=
  db ++ [{ tag := syncTagOf req.url,
           data := { url := req.url.href, method := req.method,
                     headers := req.headers, credentials := req.credentials,
                     mode := req.mode, referrer := req.referrer,
                     body := req.body, timestamp := now },
           status := "pending", retries := 0, createdAt := now }]

/-- `handleMutation(request)` for POST/PUT/DELETE, as a function of the fetch
outcome and the `navigator.onLine` flag. -/
def handleMutation (online : Bool) (fetchResult : Except String SWResponse)
    (req : SWRequest) (now : Nat) (db : List QueuedRec) :
    Except String SWResponse × List QueuedRec :=
  match fetchResult with
  | .ok resp => (.ok resp, db)
  | .error err =>
    if !online then (.ok offlineResponse, queueRequest req now db)
    else (.error err, db)

end ServiceWorker

/-! ### `EnhancedApiService.request` (`src/src/api/ApiService.js`)

The retry loop, lines 174-250.  Fetch outcomes are modelled by the HTTP
status of each successive fetch (connectivity failures and aborts are out of
scope for the claims, which are about server responses).  The token-refresh
call is modelled by whether it succeeds.  The result records the error kind
and how many fetches were performed. -/

namespace ApiService

/-- `maxRetries` instance field (constructor default 3). -/
def maxRetries : Nat := 3

/-- `response.ok` per the Fetch specification. -/
def respOk (status : Nat) : Bool := 200 ≤ status && status < 300

/-- The error a failed `request` call rejects with. -/
inductive ReqError where
  | httpError (status : Nat)
  | authError
deriving Repr, DecidableEq

/-- Result of a `request` call: the resolved status or the rejection, plus
the number of `fetch` calls made. -/
structure ReqResult where
  result : Except ReqError Nat
  fetches : Nat
deriving Repr, DecidableEq

/-- The body of the `while (attempts <= retries)` loop, one constructor per
iteration; `fuel` is `retries + 1 - attempts`, so the recursion mirrors the
loop bound.  `statuses n` is the status of the `n`-th fetch. -/
def requestAux (statuses : Nat → Nat) (requireAuth hasRefresh refreshOk : Bool)
    (retries : Nat) : Nat → Nat → Nat → ReqResult
  | _, fetchCount, 0 =>
    -- unreachable: the loop exits by return/throw before fuel runs out
    { result := .error (.httpError 0), fetches := fetchCount }
  | attempts, fetchCount, fuel + 1 =>
    let status := statuses fetchCount
    let fetchCount' := fetchCount + 1
    if status == 401 && requireAuth && hasRefresh && decide (attempts < retries)
    then
      if refreshOk then
        requestAux statuses requireAuth hasRefresh refreshOk retries
          (attempts + 1) fetchCount' fuel
      else
        -- refresh failed: clearTokens(); throw 'Authentication failed...',
        -- which the catch rethrows without retrying
        { result := .error .authError, fetches := fetchCount' }
    else if respOk status then
      { result := .ok status, fetches := fetchCount' }
    else
      -- throw the API error; the catch retries unless attempts are exhausted
      if attempts < retries then
        requestAux statuses requireAuth hasRefresh refreshOk retries
          (attempts + 1) fetchCount' fuel
      else
        { result := .error (.httpError status), fetches := fetchCount' }

/-- `request(endpoint, options)` with `retries` attempts allowed. -/
def request (statuses : Nat → Nat) (requireAuth hasRefresh refreshOk : Bool)
    (retries : Nat) : ReqResult :=
  requestAux statuses requireAuth hasRefresh refreshOk retries 0 0 (retries + 1)

end ApiService

/-! ### Sync event listeners (`SyncManager.notifyListeners`,
`src/src/utils/syncManager.js` lines 300-308; the part_005
`SyncService.notifyListeners` is textually identical)

`this.listeners.forEach(listener => { try { listener(event, data) } catch
(error) { console.error(...) } })`: each registered listener is invoked once,
in array order, each call wrapped in its own try/catch. -/

namespace Listeners

/-- A listener: receives the event name and the data, and either returns or
throws. -/
def Listener : Type := String → String → Except String Unit

/-- What happened to one listener during a dispatch. -/
inductive Outcome where
  | delivered
  | threw (msg : String)
deriving Repr, DecidableEq

/-- One guarded call: `try { listener(event, data) } catch (error) { ... }` —
a throw is caught and logged, never propagated. -/
def invoke (l : Listener) (event data : String) : Outcome :=
  match l event data with
  | .ok _ => .delivered
  | .error e => .threw e

/-- `notifyListeners(event, data)`: the `forEach` over the listener array,
recorded as the list of per-listener outcomes.  The function is total: the
dispatch always returns to its caller. -/
def notifyListeners (ls : List Listener) (event data : String) :
    List Outcome :=
  match ls with
  | [] => []
  | l :: rest => invoke l event data :: notifyListeners rest event data

end Listeners

/-! ### Concrete inputs used by the claim theorems -/

/-- The priority scale the spec describes (`'high', 'normal', 'low'`),
as a rank.  This is a claim-side definition (it follows the spec's words,
for comparison against the source behaviour); the source never ranks
priorities. -/
def specPriorityRank : String → Nat
  | "high" => 0
  | "low" => 2
  | _ => 1

/-- The batch ordering the spec sentence asserts: by priority, then by
creation time (FIFO within a priority).  Claim-side definition, for
comparison against `SyncQueueDAO.getNextBatch`. -/
def specOrderedByPriorityThenCreation (batch : List QueueItem) : Prop :=
  batch.Pairwise (fun a b =>
    specPriorityRank a.priority < specPriorityRank b.priority ∨
      (specPriorityRank a.priority = specPriorityRank b.priority ∧
        a.createdAt ≤ b.createdAt))

instance (batch : List QueueItem) :
    Decidable (specOrderedByPriorityThenCreation batch) := by
  unfold specOrderedByPriorityThenCreation
  infer_instance

/-- A queue with a low-priority item created before a high-priority one
(both producible by `SyncService.addToQueue`, which stores `priority`), and
a pending item carrying a future `nextEligibleRetry`. -/
def qc3 : List QueueItem :=
  [ { id := 1, type := "FORM_SUBMISSION", data := {}, status := "pending",
      attempts := 0, priority := "low", createdAt := 0 },
    { id := 2, type := "FORM_SUBMISSION", data := {}, status := "pending",
      attempts := 0, priority := "high", createdAt := 1 },
    { id := 3, type := "MEDIA_UPLOAD", data := {}, status := "pending",
      attempts := 0, nextEligibleRetry := some 999999, createdAt := 2 } ]

/-- A queue holding one fresh pending item. -/
def qc4 : List QueueItem :=
  [ { id := 1, type := "FORM_SUBMISSION", data := {}, status := "pending",
      attempts := 0 } ]

/-- An API oracle whose calls all succeed. -/
def api0 : ApiOracle := { submitForm := .ok (), uploadMedia := .ok "u" }

/-- A queue item that has already used up `MAX_RETRY_ATTEMPTS` attempts. -/
def itemc5 : QueueItem :=
  { id := 1, type := "FORM_SUBMISSION", data := { formDataId := some 1 },
    status := "pending", attempts := 3 }

/-- A state whose queue holds only `itemc5`. -/
def stc5 : AppState :=
  { formData := [], media := [], queue := [itemc5], nextQueueId := 2, now := 0 }

/-- A submission record awaiting delivery. -/
def fdc1 : FormDataRec := { id := 1, formId := "f", projectId := "p", data := "d" }

/-- Two media rows of submission 1, neither uploaded yet (no `serverUrl`). -/
def mediac1 : List MediaRec :=
  [ { id := 10, formDataId := 1, fieldName := "photo" },
    { id := 11, formDataId := 1, fieldName := "signature" } ]

/-- The FORM_SUBMISSION queue item for submission 1. -/
def itemc1 : QueueItem :=
  { id := 1, type := "FORM_SUBMISSION", data := { formDataId := some 1 },
    status := "pending", attempts := 0 }

/-- State: submission 1 with two pending media rows, its queue item enqueued. -/
def stc1 : AppState :=
  { formData := [fdc1], media := mediac1, queue := [itemc1],
    nextQueueId := 2, now := 7 }

/-- A queue holding one fresh FORM_SUBMISSION item. -/
def qc6 : List QueueItem :=
  [ { id := 1, type := "FORM_SUBMISSION", data := { formDataId := some 1 },
      status := "pending", attempts := 0 } ]

/-- The worker outcome against a server that always answers 500. -/
def server500 : Except String String :=
  .error "Server returned 500: Internal Server Error"

/-- A fresh FORM_SUBMISSION queue item (claim C9 scenario). -/
def itemc9 : QueueItem :=
  { id := 1, type := "FORM_SUBMISSION", data := { formDataId := some 1 },
    status := "pending", attempts := 0 }

/-- State holding submission 1 (no media) and its queue item. -/
def stc9 : AppState :=
  { formData := [{ id := 1, formId := "f", projectId := "p", data := "d" }],
    media := [], queue := [itemc9], nextQueueId := 2, now := 0 }

/-- An API oracle whose calls all reject with an HTTP 404 error. -/
def api404 : ApiOracle :=
  { submitForm := .error "HTTP error 404", uploadMedia := .error "HTTP error 404" }

/-- Two listeners: the first throws, the second returns normally. -/
def lsC10 : List Listeners.Listener :=
  [fun _ _ => .error "boom", fun _ _ => .ok ()]

/-! ### Claim C3 -/

/-- C3, counterexample.  With a low-priority item created before a
high-priority one, `getNextBatch` returns the batch in creation order, not
priority order; and a pending item whose `nextEligibleRetry` lies in the
future (here 999999, later than any clock the cycle could read, since the
DAO reads no clock at all) is returned anyway.  This refutes the claim that
every returned item has `nextEligibleRetry <= now` and that batches are
ordered by priority then creation time. -/
theorem c3_counterexample :
    ¬ specOrderedByPriorityThenCreation (SyncQueueDAO.getNextBatch qc3 10) ∧
    (SyncQueueDAO.getNextBatch qc3 10).map (fun it => it.nextEligibleRetry)
      = [none, none, some 999999] := by
  constructor
  · decide
  · decide

/-- C3, amended.  For every queue state (in ascending key order) and every
limit, `getNextBatch` returns at most `limit` items, each returned item has
status `'pending'`, the batch preserves the store's key (creation) order,
and when no more than `limit` pending items exist the batch is exactly the
pending items; `priority` and `nextEligibleRetry` play no role. -/
theorem c3_nextBatch_amended (q : List QueueItem) (limit : Nat)
    (hq : q.Pairwise (fun a b => a.id < b.id)) :
    (SyncQueueDAO.getNextBatch q limit).length ≤ limit ∧
    (∀ it ∈ SyncQueueDAO.getNextBatch q limit, it.status = "pending") ∧
    (SyncQueueDAO.getNextBatch q limit).Pairwise (fun a b => a.id < b.id) ∧
    ((q.filter (fun it => it.status == "pending")).length ≤ limit →
      SyncQueueDAO.getNextBatch q limit =
        q.filter (fun it => it.status == "pending")) := by
  refine ⟨List.length_take_le _ _, ?_, ?_, ?_⟩
  · intro it hit
    have h1 : it ∈ q.filter (fun x => x.status == "pending") :=
      (List.take_sublist _ _).subset hit
    have h2 := List.of_mem_filter h1
    simpa using h2
  · exact hq.sublist ((List.take_sublist _ _).trans (List.filter_sublist q))
  · intro h
    exact List.take_of_length_le h

/-- C3, witness: the amended theorem evaluated on `qc3` with limit 2. -/
theorem c3_nextBatch_amended_witness :
    (SyncQueueDAO.getNextBatch qc3 2).length ≤ 2 ∧
    (SyncQueueDAO.getNextBatch qc3 2).Pairwise (fun a b => a.id < b.id) :=
  ⟨(c3_nextBatch_amended qc3 2 (by decide)).1,
   (c3_nextBatch_amended qc3 2 (by decide)).2.2.1⟩

/-! ### Claim C4 -/

/-- C4, counterexample.  Marking the same item completed twice leaves it
`'completed'` but increments the attempt counter on both calls (1, then 2):
`updateStatus` executes `item.attempts += 1` unconditionally, so the second
call does not preserve the attempt counter. -/
theorem c4_counterexample :
    (SyncQueueDAO.updateStatus qc4 1 "completed" none 5).map
        (fun it => (it.status, it.attempts)) = [("completed", 1)] ∧
    (SyncQueueDAO.updateStatus (SyncQueueDAO.updateStatus qc4 1 "completed" none 5)
        1 "completed" none 6).map
        (fun it => (it.status, it.attempts)) = [("completed", 2)] ∧
    (2 : Nat) ≠ 1 := by
  refine ⟨by decide, by decide, by decide⟩

/-- C4, amended.  For every queue, marking an item completed twice leaves
its status `'completed'` (as after the first call) but increments the
attempt counter once per call: after the second call the counter is one more
than after the first. -/
theorem c4_markCompleted_amended (q : List QueueItem) (id t1 t2 i : Nat)
    (h : i < q.length) (hid : (q[i]).id = id) :
    (SyncQueueDAO.updateStatus (SyncQueueDAO.updateStatus q id "completed" none t1)
        id "completed" none t2)[i]?.map (fun it => (it.status, it.attempts)) =
      some ("completed", (q[i]).attempts + 2) ∧
    (SyncQueueDAO.updateStatus q id "completed" none t1)[i]?.map
        (fun it => (it.status, it.attempts)) =
      some ("completed", (q[i]).attempts + 1) := by
  unfold SyncQueueDAO.updateStatus
  constructor <;>
    simp [List.getElem?_map, List.getElem?_eq_getElem h,
      SyncQueueDAO.applyStatus, hid]

/-- C4, witness: the amended theorem evaluated on `qc4`. -/
theorem c4_markCompleted_amended_witness :
    (SyncQueueDAO.updateStatus (SyncQueueDAO.updateStatus qc4 1 "completed" none 5)
        1 "completed" none 6)[0]?.map (fun it => (it.status, it.attempts)) =
      some ("completed", 2) :=
  (c4_markCompleted_amended qc4 1 5 6 0 (by decide) (by decide)).1

/-! ### Claim C5 -/

/-- C5, counterexample.  The attempt counter increases on a `'processing'`
status update, not only on error marking; and when `processItem` force-fails
an exhausted item, the `'failed'` update itself increments the counter past
`MAX_RETRY_ATTEMPTS` (here to 4 > 3). -/
theorem c5_counterexample :
    (SyncQueueDAO.updateStatus qc4 1 "processing" none 0).map
        (fun it => it.attempts) = [1] ∧ (1 : Nat) ≠ 0 ∧
    (SyncManager.processItem api0 stc5 itemc5).1.queue.map
        (fun it => (it.status, it.attempts)) = [("failed", 4)] ∧
    ¬ ((4 : Nat) ≤ SyncManager.MAX_RETRY_ATTEMPTS) := by
  refine ⟨by decide, by decide, by decide, by decide⟩

/-- C5, amended.  (a) Every `updateStatus` call — whatever the status —
increments the matched item's attempt counter by one; (b) `getNextBatch`
returns only items whose status is `'pending'`, so `'failed'` (and
`'error'`, `'processing'`, `'completed'`) items are excluded from drain
batches; (c) once an item's attempts reach `MAX_RETRY_ATTEMPTS`,
`processItem` marks it `'failed'`, that update incrementing the stored
counter once more (so the counter can exceed the maximum). -/
theorem c5_attempts_amended :
    (∀ (q : List QueueItem) (id : Nat) (s : String) (e : Option String)
        (t i : Nat) (h : i < q.length), (q[i]).id = id →
        (SyncQueueDAO.updateStatus q id s e t)[i]?.map (fun it => it.attempts) =
          some ((q[i]).attempts + 1)) ∧
    (∀ (q : List QueueItem) (limit : Nat) (it : QueueItem),
        it ∈ SyncQueueDAO.getNextBatch q limit → it.status = "pending") ∧
    (∀ (api : ApiOracle) (st : AppState) (item : QueueItem) (i : Nat)
        (h : i < st.queue.length), (st.queue[i]).id = item.id →
        SyncManager.MAX_RETRY_ATTEMPTS ≤ item.attempts →
        ((SyncManager.processItem api st item).1.queue)[i]?.map
            (fun it => (it.status, it.attempts)) =
          some ("failed", (st.queue[i]).attempts + 1)) := by
  refine ⟨?_, ?_, ?_⟩
  · intro q id s e t i h hid
    unfold SyncQueueDAO.updateStatus
    simp [List.getElem?_map, List.getElem?_eq_getElem h,
      SyncQueueDAO.applyStatus, hid]
  · intro q limit it hit
    have h1 : it ∈ q.filter (fun x => x.status == "pending") :=
      (List.take_sublist _ _).subset hit
    have h2 := List.of_mem_filter h1
    simpa using h2
  · intro api st item i h hid hmax
    unfold SyncManager.processItem
    rw [if_pos hmax]
    unfold SyncQueueDAO.updateStatus
    simp [List.getElem?_map, List.getElem?_eq_getElem h,
      SyncQueueDAO.applyStatus, hid]

/-- C5, witness: the amended theorem evaluated on `qc4` and `stc5`. -/
theorem c5_attempts_amended_witness :
    (SyncQueueDAO.updateStatus qc4 1 "processing" none 0)[0]?.map
        (fun it => it.attempts) = some 1 ∧
    ((SyncManager.processItem api0 stc5 itemc5).1.queue)[0]?.map
        (fun it => (it.status, it.attempts)) = some ("failed", 4) :=
  ⟨c5_attempts_amended.1 qc4 1 "processing" none 0 0 (by decide) (by decide),
   c5_attempts_amended.2.2 api0 stc5 itemc5 0 (by decide) (by decide) (by decide)⟩

/-! ### Claim C1 -/

/-- C1, counterexample.  Submission 1 has two not-yet-uploaded media rows
(ids 10 and 11, both without a server URL), yet processing its FormSubmission
queue item enqueues a MediaUpload item only for media 10 — the loop in
`syncFormSubmission` throws at the first incomplete row, so no item for
media 11 is ever enqueued, refuting "a MediaUpload queue item for each
incomplete MediaItem". -/
theorem c1_counterexample :
    ((SyncManager.processItem api0 stc1 itemc1).1.queue.map
        (fun it => it.data.mediaId)).count (some 10) = 1 ∧
    ((SyncManager.processItem api0 stc1 itemc1).1.queue.map
        (fun it => it.data.mediaId)).count (some 11) = 0 ∧
    (mediac1.map (fun m => m.serverUrl)) = [none, none] := by
  refine ⟨by decide, by decide, by decide⟩

/-- C1, amended.  When a FormSubmission item is processed and the
submission's media list has an incomplete row (first such row `m`), the
engine enqueues exactly one new MediaUpload queue item — for `m` only — the
FormSubmission item is marked `'error'` with the media-not-ready message
(its attempt counter rising by 2: one for `'processing'`, one for
`'error'`), and neither the queue item nor the submission is marked
`'failed'` or `'completed'` (the submission record is untouched). -/
theorem c1_media_not_ready_amended (api : ApiOracle) (fd : FormDataRec)
    (ms : List MediaRec) (item : QueueItem) (m : MediaRec) (n t : Nat)
    (hty : item.type = "FORM_SUBMISSION")
    (hfd : item.data.formDataId = some fd.id)
    (hat : item.attempts < SyncManager.MAX_RETRY_ATTEMPTS)
    (hfind : (ms.filter (fun x => x.formDataId == fd.id)).find?
        (fun x => x.serverUrl.isNone) = some m)
    (hne : item.id ≠ n) :
    (SyncManager.processItem api
        { formData := [fd], media := ms, queue := [item],
          nextQueueId := n, now := t } item).2
      = .error SyncManager.mediaNotReadyMsg ∧
    (SyncManager.processItem api
        { formData := [fd], media := ms, queue := [item],
          nextQueueId := n, now := t } item).1.queue
      = [{ item with status := "error", attempts := item.attempts + 2,
                     lastError := some SyncManager.mediaNotReadyMsg,
                     updatedAt := t },
         { id := n, type := "MEDIA_UPLOAD",
           data := { mediaId := some m.id, formDataId := some fd.id },
           status := "pending", attempts := 0, createdAt := t }] ∧
    (SyncManager.processItem api
        { formData := [fd], media := ms, queue := [item],
          nextQueueId := n, now := t } item).1.formData = [fd] := by
  have hnot : ¬ (item.attempts ≥ SyncManager.MAX_RETRY_ATTEMPTS) := by omega
  have hne2 : (n == item.id) = false := by
    simp [Ne.symm hne]
  refine ⟨?_, ?_, ?_⟩ <;>
    simp [SyncManager.processItem, SyncManager.syncFormSubmission,
      SyncManager.getFormData, SyncManager.getMediaByFormData,
      SyncManager.addToQueue, SyncQueueDAO.addToQueue,
      SyncQueueDAO.updateStatus, SyncQueueDAO.applyStatus,
      hnot, hty, hfd, hfind, hne2]

/-- C1, witness: the amended theorem evaluated on `stc1` (media 10 is the
first incomplete row). -/
theorem c1_media_not_ready_amended_witness :
    (SyncManager.processItem api0 stc1 itemc1).2
      = .error SyncManager.mediaNotReadyMsg ∧
    (SyncManager.processItem api0 stc1 itemc1).1.formData = [fdc1] :=
  ⟨(c1_media_not_ready_amended api0 fdc1 mediac1 itemc1
      { id := 10, formDataId := 1, fieldName := "photo" } 2 7
      (by decide) (by decide) (by decide) (by decide) (by decide)).1,
   (c1_media_not_ready_amended api0 fdc1 mediac1 itemc1
      { id := 10, formDataId := 1, fieldName := "photo" } 2 7
      (by decide) (by decide) (by decide) (by decide) (by decide)).2.2⟩

/-! ### Claim C2 -/

/-- C2, counterexample.  Two `syncAll` calls followed by completion of the
running cycle: only one drain cycle ever starts.  The second call merely
returned the in-flight promise — no "run again" flag exists (the
`pendingSync` field is never written), so no second full drain cycle runs
after the first completes, refuting "another full drain cycle runs after the
current one completes". -/
theorem c2_counterexample :
    SyncAll.run SyncAll.initState [.request, .request, .finish]
      = { isSyncing := false, active := 0, started := 1 } ∧
    (1 : Nat) ≠ 2 := by
  refine ⟨by decide, by decide⟩

/-- C2, amended.  The in-memory `isSyncing` flag does provide mutual
exclusion — over every event sequence at most one drain cycle is active —
but a `syncAll` call arriving while a cycle is in flight starts nothing:
stepping any reachable state with a `request` increases the number of
started cycles only when no cycle is running.  The caller of the coalesced
request just awaits the in-flight cycle's promise; no follow-up cycle is
scheduled. -/
theorem c2_mutual_exclusion_amended (evs : List SyncAll.Event) :
    (SyncAll.run SyncAll.initState evs).active ≤ 1 ∧
    (SyncAll.run SyncAll.initState (evs ++ [.request])).started =
      (SyncAll.run SyncAll.initState evs).started +
        (if (SyncAll.run SyncAll.initState evs).isSyncing then 0 else 1) := by
  have key : ∀ (l : List SyncAll.Event) (s : SyncAll.SchedState),
      s.active = (if s.isSyncing then 1 else 0) →
      (SyncAll.run s l).active =
        (if (SyncAll.run s l).isSyncing then 1 else 0) := by
    intro l
    induction l with
    | nil => intro s hs; simpa [SyncAll.run] using hs
    | cons e rest ih =>
      intro s hs
      have hstep : (SyncAll.step s e).active =
          (if (SyncAll.step s e).isSyncing then 1 else 0) := by
        cases e <;> simp [SyncAll.step] <;> split <;> simp_all
      simpa [SyncAll.run, List.foldl_cons] using ih (SyncAll.step s e) hstep
  have hinv := key evs SyncAll.initState (by simp [SyncAll.initState])
  constructor
  · rw [hinv]
    split <;> omega
  · have happ : SyncAll.run SyncAll.initState (evs ++ [.request]) =
        SyncAll.step (SyncAll.run SyncAll.initState evs) .request := by
      simp [SyncAll.run, List.foldl_append]
    rw [happ]
    by_cases hb : (SyncAll.run SyncAll.initState evs).isSyncing <;>
      simp [SyncAll.step, hb]

/-! ### Claim C6 -/

/-- C6, counterexample.  With `maxRetryAttempts = 3` and an always-500
server, three drain passes leave the item in status `'error'`, not
`'failed'`: the first pass marks it `'error'` and the later passes never
pick it up again, because `getNextBatch` selects only `'pending'` items.
No `nextEligibleRetry` is ever stored (`updateStatus` drops the argument),
and the one backoff the catch branch computes is 2000 ms (`1000 * 2^1`,
from the stale `item.attempts + 1`), not the 1000 ms the claimed
1s→2s→4s progression starts with. -/
theorem c6_counterexample :
    (SyncService.drainTimes 3 server500 qc6 0 3).map (fun it => it.status)
      = ["error"] ∧
    ("error" : String) ≠ "failed" ∧
    (SyncService.drainTimes 3 server500 qc6 0 3).map
        (fun it => it.nextEligibleRetry) = [none] ∧
    (SyncService.processItem 3 server500 qc6
        { id := 1, type := "FORM_SUBMISSION", data := { formDataId := some 1 },
          status := "pending", attempts := 0 } 0).computedBackoffMs
      = some 2000 ∧
    (2000 : Nat) ≠ 1000 := by
  refine ⟨by decide, by decide, by decide, by decide, by decide⟩

/-- C6, amended.  Against an always-failing server, the first drain pass
takes a fresh pending item to `'error'` with `attempts = 2` (both the
`'processing'` and the `'error'` updates increment the counter) and no
stored retry time; the backoff the catch branch computes for that error is
`min(1000·2^(attempts+1), 30 min) = 2 s`, and it is discarded because
`updateStatus` has no parameter for it.  Every further drain pass leaves the
queue unchanged — the item never becomes `'failed'` and never retries,
because only `'pending'` items are batched. -/
theorem c6_stuck_error_amended (item : QueueItem) (e : String) (max now : Nat)
    (hp : item.status = "pending") (ha : item.attempts = 0) (hm : 1 ≤ max) :
    (∀ n, 1 ≤ n → SyncService.drainTimes max (.error e) [item] now n =
        [{ item with status := "error", attempts := 2,
                     lastError := some e, updatedAt := now }]) ∧
    (SyncService.processItem max (.error e) [item] item now).computedBackoffMs
      = some 2000 := by
  have hnot : ¬ (item.attempts ≥ max) := by omega
  have hmz : ¬ max = 0 := by omega
  have herr : SyncService.processItem max (.error e) [item] item now =
      { queue := [{ item with status := "error", attempts := 2,
                              lastError := some e, updatedAt := now }],
        outcome := .error e,
        computedBackoffMs := some 2000 } := by
    simp [SyncService.processItem, SyncQueueDAO.updateStatus,
      SyncQueueDAO.applyStatus, hnot, hmz, ha]
  have hfix : ∀ (w : Except String String) (q : List QueueItem) (t : Nat),
      (∀ it ∈ q, it.status ≠ "pending") →
      SyncService.drainOnce max w q t = q := by
    intro w q t hq
    have hempty : SyncQueueDAO.getNextBatch q SyncManager.BATCH_SIZE = [] := by
      unfold SyncQueueDAO.getNextBatch
      have hnil : q.filter (fun it => it.status == "pending") = [] := by
        rw [List.filter_eq_nil_iff]
        intro a ha2
        simpa using hq a ha2
      rw [hnil, List.take_nil]
    simp [SyncService.drainOnce, hempty]
  constructor
  · intro n hn
    obtain ⟨k, rfl⟩ : ∃ k, n = k + 1 := ⟨n - 1, by omega⟩
    have hdrain1 : SyncService.drainOnce max (.error e) [item] now =
        [{ item with status := "error", attempts := 2,
                     lastError := some e, updatedAt := now }] := by
      have hbatch : SyncQueueDAO.getNextBatch [item] SyncManager.BATCH_SIZE
          = [item] := by
        unfold SyncQueueDAO.getNextBatch
        simp [hp, SyncManager.BATCH_SIZE]
      unfold SyncService.drainOnce
      rw [hbatch]
      simp [List.foldl_cons, herr]
    have hrest : ∀ k2, SyncService.drainTimes max (.error e)
        [{ item with status := "error", attempts := 2,
                     lastError := some e, updatedAt := now }] now k2 =
        [{ item with status := "error", attempts := 2,
                     lastError := some e, updatedAt := now }] := by
      intro k2
      induction k2 with
      | zero => rfl
      | succ k3 ih =>
        rw [SyncService.drainTimes]
        rw [hfix _ _ _ (by intro it hit; simp at hit; subst hit; simp)]
        exact ih
    rw [SyncService.drainTimes, hdrain1]
    exact hrest k
  · rw [herr]

/-- C6, witness: the amended theorem evaluated on `qc6` against `server500`
with `maxRetryAttempts = 3` and three drain passes. -/
theorem c6_stuck_error_amended_witness :
    SyncService.drainTimes 3 server500 qc6 0 3
      = [{ id := 1, type := "FORM_SUBMISSION", data := { formDataId := some 1 },
           status := "error", attempts := 2,
           lastError := some "Server returned 500: Internal Server Error",
           updatedAt := 0 }] ∧
    (SyncService.processItem 3 server500 qc6
        { id := 1, type := "FORM_SUBMISSION", data := { formDataId := some 1 },
          status := "pending", attempts := 0 } 0).computedBackoffMs
      = some 2000 := by
  have h := c6_stuck_error_amended
    { id := 1, type := "FORM_SUBMISSION", data := { formDataId := some 1 },
      status := "pending", attempts := 0 }
    "Server returned 500: Internal Server Error" 3 0
    (by decide) (by decide) (by decide)
  exact ⟨h.1 3 (by decide), h.2⟩

/-! ### Claim C7 -/

/-- Unfolding step for `Math.ceil`: a non-empty blob has one chunk plus the
chunks of the remainder after the first chunk size. -/
theorem MediaStore.totalChunks_succ (c : Nat) (hc : 0 < c) (len : Nat)
    (hl : 1 ≤ len) : totalChunksOf len c = totalChunksOf (len - c) c + 1 := by
  unfold totalChunksOf
  have h1 : len + c - 1 = (len - 1) + c := by omega
  rw [h1, Nat.add_div_right _ hc]
  congr 1
  rcases Nat.le_total c len with h | h
  · have h2 : len - c + c - 1 = len - 1 := by omega
    rw [h2]
  · have h0 : len - c = 0 := by omega
    rw [h0]
    have hA : (0 + c - 1) / c = 0 := Nat.div_eq_of_lt (by omega)
    have hB : (len - 1) / c = 0 := Nat.div_eq_of_lt (by omega)
    rw [hA, hB]

/-- Concatenating the chunk slices of a blob restores the blob, for every
positive chunk size (zero-length blobs produce no chunks). -/
theorem MediaStore.chunkSlices_flatten (c : Nat) (hc : 0 < c)
    (data : List Nat) : (chunkSlices c data).flatten = data := by
  have H : ∀ (n : Nat) (l : List Nat), l.length ≤ n →
      (chunkSlices c l).flatten = l := by
    intro n
    induction n with
    | zero =>
      intro l h
      have hl : l = [] := List.eq_nil_of_length_eq_zero (Nat.le_zero.mp h)
      subst hl
      simp [chunkSlices, totalChunksOf, Nat.div_eq_of_lt]
    | succ n ih =>
      intro l h
      cases hl : l with
      | nil => simp [chunkSlices, totalChunksOf, Nat.div_eq_of_lt]
      | cons a rest =>
        subst hl
        have hlen : 1 ≤ (a :: rest).length := by simp
        rw [chunkSlices, totalChunks_succ c hc _ hlen, List.range_succ_eq_map]
        simp only [List.map_cons, List.map_map, List.flatten_cons]
        have hhead : ((a :: rest).drop (0 * c)).take c = (a :: rest).take c := by
          simp
        have htail : ∀ i : Nat,
            ((a :: rest).drop (Nat.succ i * c)).take c =
            (((a :: rest).drop c).drop (i * c)).take c := by
          intro i
          rw [List.drop_drop]
          have harith : Nat.succ i * c = c + i * c := by
            rw [Nat.succ_mul, Nat.add_comm]
          rw [harith]
        have hmap : (List.range (totalChunksOf ((a :: rest).length - c) c)).map
              ((fun i => ((a :: rest).drop (i * c)).take c) ∘ Nat.succ) =
            chunkSlices c ((a :: rest).drop c) := by
          unfold chunkSlices
          have hlen2 : ((a :: rest).drop c).length = (a :: rest).length - c := by
            simp
          rw [hlen2]
          apply List.map_congr_left
          intro i _
          simp only [Function.comp]
          exact htail i
        rw [hhead, hmap]
        have hih : (chunkSlices c ((a :: rest).drop c)).flatten =
            (a :: rest).drop c := by
          apply ih
          have hd : ((a :: rest).drop c).length = (a :: rest).length - c := by
            simp
          rw [hd]
          simp at h ⊢
          omega
        rw [hih, List.take_append_drop]
  exact H data.length data le_rfl

/-- The byte payloads of the chunk records written by `storeMedia` are the
chunk slices of the stored blob. -/
theorem MediaStore.buildChunks_map_data (mediaId : String) (c : Nat)
    (data : List Nat) :
    (buildChunks mediaId c data).map (fun ch => ch.data) = chunkSlices c data := by
  unfold buildChunks chunkSlices
  rw [List.map_map]
  rfl

/-- Every chunk record written for a media id carries that media id. -/
theorem MediaStore.buildChunks_mediaId (mId : String) (c : Nat)
    (data : List Nat) : ∀ ch ∈ buildChunks mId c data, ch.mediaId = mId := by
  intro ch hch
  unfold buildChunks at hch
  obtain ⟨i, _, rfl⟩ := List.mem_map.mp hch
  rfl

/-- The chunk records are written in ascending `chunkIndex` order. -/
theorem MediaStore.buildChunks_sorted (mId : String) (c : Nat)
    (data : List Nat) :
    (buildChunks mId c data).Sorted (fun a b => a.chunkIndex ≤ b.chunkIndex) := by
  unfold buildChunks
  rw [List.Sorted, List.pairwise_map]
  exact (List.pairwise_lt_range _).imp (fun h => Nat.le_of_lt h)

/-- C7, counterexample.  A PNG blob is re-encoded by `storeMedia`
(`compressImage` declares the stored file `image/jpeg`), so the round trip
returns MIME type `image/jpeg`, not the original `image/png` — the claim
fails for image blobs.  (`reencode` is instantiated with the identity, so
even with byte-preserving compression the MIME type differs.) -/
theorem c7_counterexample :
    ((MediaStore.getMediaFile (MediaStore.storeMedia (fun d => d) "m1"
        { name := "pic.png", type := "image/png", data := [1, 2, 3] }
        1 "photo" MediaStore.emptyDB) "m1").map (fun r => r.2.type)
      = some "image/jpeg") ∧
    some "image/jpeg" ≠ some ("image/png" : String) := by
  refine ⟨by decide, by decide⟩

/-- C7, amended.  For every blob whose MIME type is not a non-gif image type
— for those `storeMedia` first re-encodes to JPEG — and every blob size
(0 bytes, 1 byte, one chunk, one chunk + 1, 10 chunks, …), storing the blob
and reading it back returns exactly the original byte sequence, MIME type
and file name, on any database not already holding that media id. -/
theorem MediaStore.c7_roundtrip_amended (reencode : List Nat → List Nat)
    (mediaId : String) (file : MediaFile) (formDataId : Nat)
    (fieldName : String) (db : MediaDB)
    (hcond : (strStartsWith file.type "image/" && file.type != "image/gif")
      = false)
    (hmedia : ∀ m ∈ db.media, m.id ≠ mediaId)
    (hchunks : ∀ ch ∈ db.chunks, ch.mediaId ≠ mediaId) :
    getMediaFile (storeMedia reencode mediaId file formDataId fieldName db)
        mediaId =
      some ({ id := mediaId, formDataId := formDataId, fieldName := fieldName,
              filename := file.name, type := file.type,
              size := file.data.length, status := "pending" },
            { name := file.name, type := file.type, data := file.data }) := by
  have hnone : db.media.find? (fun m => m.id == mediaId) = none := by
    rw [List.find?_eq_none]
    intro m hm
    simpa using hmedia m hm
  have hfiltnil : db.chunks.filter (fun ch => ch.mediaId == mediaId) = [] := by
    rw [List.filter_eq_nil_iff]
    intro ch hch
    simpa using hchunks ch hch
  have hfiltall : (buildChunks mediaId CHUNK_SIZE file.data).filter
      (fun ch => ch.mediaId == mediaId) =
      buildChunks mediaId CHUNK_SIZE file.data := by
    apply List.filter_eq_self.mpr
    intro ch hch
    simp [buildChunks_mediaId mediaId CHUNK_SIZE file.data ch hch]
  simp only [storeMedia, hcond, Bool.false_eq_true, if_false]
  simp only [getMediaFile]
  simp only [List.find?_append, hnone, Option.none_or]
  simp only [List.find?_cons, List.find?_nil]
  rw [show (mediaId == mediaId) = true by simp]
  rw [List.filter_append]
  rw [hfiltnil]
  rw [hfiltall, List.nil_append]
  rw [List.Sorted.insertionSort_eq
    (buildChunks_sorted mediaId CHUNK_SIZE file.data)]
  rw [buildChunks_map_data,
    chunkSlices_flatten CHUNK_SIZE (by decide) file.data]

/-- C7, witness: the amended theorem evaluated on a 3-byte
`application/octet-stream` blob stored into the empty database. -/
theorem c7_roundtrip_amended_witness :
    MediaStore.getMediaFile (MediaStore.storeMedia (fun d => d) "m1"
        { name := "doc.bin", type := "application/octet-stream",
          data := [7, 8, 9] } 1 "attachment" MediaStore.emptyDB) "m1" =
      some ({ id := "m1", formDataId := 1, fieldName := "attachment",
              filename := "doc.bin", type := "application/octet-stream",
              size := 3, status := "pending" },
            { name := "doc.bin", type := "application/octet-stream",
              data := [7, 8, 9] }) :=
  MediaStore.c7_roundtrip_amended (fun d => d) "m1"
    { name := "doc.bin", type := "application/octet-stream", data := [7, 8, 9] }
    1 "attachment" MediaStore.emptyDB (by decide)
    (by simp [MediaStore.emptyDB]) (by simp [MediaStore.emptyDB])

/-! ### Claim C8 -/

/-- C8.  For every mutation request and request-queue state: a fetch failure
while offline appends exactly one queued-request record — holding the full
request (url, method, headers, body, plus credentials/mode/referrer) — and
returns the synthetic HTTP-200 offline-acceptance response; a fetch failure
while online propagates the error unmodified with the queue untouched; a
successful fetch passes the response through with the queue untouched. -/
theorem c8_mutation_offline_queue (req : ServiceWorker.SWRequest) (now : Nat)
    (db : List ServiceWorker.QueuedRec) (err : String)
    (resp : ServiceWorker.SWResponse) :
    ServiceWorker.handleMutation false (.error err) req now db
      = (.ok ServiceWorker.offlineResponse,
         db ++ [{ tag := ServiceWorker.syncTagOf req.url,
                  data := { url := req.url.href, method := req.method,
                            headers := req.headers,
                            credentials := req.credentials,
                            mode := req.mode, referrer := req.referrer,
                            body := req.body, timestamp := now },
                  status := "pending", retries := 0, createdAt := now }]) ∧
    ServiceWorker.offlineResponse.status = 200 ∧
    ServiceWorker.offlineResponse.body = .offlineNotice ∧
    ServiceWorker.handleMutation true (.error err) req now db
      = (.error err, db) ∧
    ServiceWorker.handleMutation true (.ok resp) req now db = (.ok resp, db) ∧
    ServiceWorker.handleMutation false (.ok resp) req now db = (.ok resp, db) :=
  ⟨rfl, rfl, rfl, rfl, rfl, rfl⟩

/-! ### Claim C9 -/

/-- C9, counterexample.  Against a server that always answers 404 (a 4xx
other than 401), `request` with the default `maxRetries = 3` performs four
fetches — it retries the client error like any other failure — and the sync
queue item whose processing fails on such an error is marked `'error'`
(retryable), not `'failed'`.  This refutes "the request is not retried, and
the corresponding sync-queue item is marked 'failed'". -/
theorem c9_counterexample :
    ApiService.request (fun _ => 404) true false true ApiService.maxRetries
      = { result := .error (.httpError 404), fetches := 4 } ∧
    (4 : Nat) ≠ 1 ∧
    (SyncManager.processItem api404 stc9 itemc9).1.queue.map
        (fun it => it.status) = ["error"] ∧
    ("error" : String) ≠ "failed" := by
  refine ⟨by decide, by decide, by decide, by decide⟩

/-- C9, amended.  Every non-2xx status other than 401 is handled uniformly:
`request` retries it until the attempt budget is exhausted (`retries + 1`
fetches in total) and then rejects with that HTTP error — there is no
terminal fast path for 4xx client errors, and the failed queue item
re-enters the retryable `'error'` state (see the counterexample's queue
conjunct). -/
theorem c9_client_error_amended (status : Nat) (ra hr ro : Bool)
    (retries : Nat) (hnotok : ApiService.respOk status = false)
    (hnot401 : status ≠ 401) :
    ApiService.request (fun _ => status) ra hr ro retries
      = { result := .error (.httpError status), fetches := retries + 1 } := by
  have h401 : (status == 401) = false := by simp [hnot401]
  have key : ∀ (fuel attempts fetchCount : Nat),
      attempts + fuel = retries + 1 → 1 ≤ fuel →
      ApiService.requestAux (fun _ => status) ra hr ro retries
          attempts fetchCount fuel =
        { result := .error (.httpError status),
          fetches := fetchCount + fuel } := by
    intro fuel
    induction fuel with
    | zero => intro attempts fetchCount hsum hge; omega
    | succ f ih =>
      intro attempts fetchCount hsum _
      rw [ApiService.requestAux]
      simp only [h401, Bool.false_and, Bool.and_self_left]
      rw [if_neg (by simp)]
      rw [if_neg (by simp [hnotok])]
      by_cases hlt : attempts < retries
      · rw [if_pos hlt]
        have hf : 1 ≤ f := by omega
        rw [ih (attempts + 1) (fetchCount + 1) (by omega) hf]
        congr 1
        omega
      · rw [if_neg hlt]
        have hf0 : f = 0 := by omega
        subst hf0
        rfl
  have hkey := key (retries + 1) 0 0 (by omega) (by omega)
  simpa [ApiService.request] using hkey

/-- C9, witness: the amended theorem evaluated at status 404 with the
default retry budget. -/
theorem c9_client_error_amended_witness :
    ApiService.request (fun _ => 404) true false true 3
      = { result := .error (.httpError 404), fetches := 4 } :=
  c9_client_error_amended 404 true false true 3 (by decide) (by decide)

/-! ### Claim C10 -/

/-- The guarded `forEach` dispatch is the pointwise guarded invocation. -/
theorem notifyListeners_eq_map (ls : List Listeners.Listener) (ev d : String) :
    Listeners.notifyListeners ls ev d
      = ls.map (fun l => Listeners.invoke l ev d) := by
  induction ls with
  | nil => rfl
  | cons l rest ih => simp [Listeners.notifyListeners, ih]

/-- C10.  For every listener list and event, `notifyListeners` produces one
outcome per registered listener — each listener is invoked exactly once, in
registration order — and it does so whatever the listeners do: a listener
that throws yields a `threw` outcome (caught by the per-listener try/catch)
and does not prevent the later listeners' outcomes, and the dispatch itself
always returns a value to its caller. -/
theorem c10_notify_all (ls : List Listeners.Listener) (event data : String) :
    (Listeners.notifyListeners ls event data).length = ls.length ∧
    ∀ (i : Nat) (h : i < ls.length),
      (Listeners.notifyListeners ls event data)[i]?
        = some (Listeners.invoke (ls[i]) event data) := by
  rw [notifyListeners_eq_map]
  constructor
  · exact List.length_map ls _
  · intro i h
    rw [List.getElem?_map, List.getElem?_eq_getElem h]
    rfl

/-- C10, witness: with a throwing first listener and a normal second one,
both outcomes are produced in order. -/
theorem c10_notify_all_witness :
    (Listeners.notifyListeners lsC10 "syncStarted" "x").length = 2 ∧
    (Listeners.notifyListeners lsC10 "syncStarted" "x")[0]?
      = some (.threw "boom") ∧
    (Listeners.notifyListeners lsC10 "syncStarted" "x")[1]?
      = some .delivered := by
  have h := c10_notify_all lsC10 "syncStarted" "x"
  refine ⟨h.1, ?_, ?_⟩
  · rw [h.2 0 (by decide)]
    rfl
  · rw [h.2 1 (by decide)]
    rfl

end OnxForms
